/-
  Formal model of the CLA bot (`cmd/clabot.go`).

  The bot gates pull requests on CLA compliance: it loads signer sets from an
  optional Google-Sheet CSV and an optional repository file, merges them, and
  posts a commit status (plus a comment on failure) for the PR author.

  Modelling conventions:
  * Go strings are Lean `String`s; the Go standard-library string operations
    used by the program (`strings.ToLower`, `strings.TrimSpace`,
    `strings.Split`, `strings.HasPrefix`, `strings.Contains`) are modelled on
    the character list, restricted to ASCII case mapping and ASCII whitespace
    (every identifier appearing in the program's data is ASCII).
  * Go's `encoding/csv` reader is modelled for documents containing no quote
    character, following its documented semantics: records are lines (blank
    lines skipped), fields are comma-separated, and every record must have the
    same number of fields as the first one, otherwise `ReadAll` errors.
  * Outbound platform calls are modelled by an environment `Env` of response
    functions, and every call made is recorded in a trace of `Action`s.
  * A Go runtime panic (out-of-range index) is modelled by `Option.none` in
    the result of the function that panics.
  * Go maps used as sets (`map[string]struct{}`) are modelled as `Finset String`.
-/
import Mathlib

namespace Clabot

/-! ### Models of the Go string operations -/

/-- Model of Go `unicode`-based lower casing restricted to ASCII letters. -/
def goLowerChar (c : Char) : Char :=
  if 'A' ≤ c ∧ c ≤ 'Z' then Char.ofNat (c.toNat + 32) else c

/-- Model of Go `strings.ToLower` (ASCII fragment). -/
def goToLower (s : String) : String :=
  ⟨s.data.map goLowerChar⟩

/-- ASCII whitespace recognised by Go `strings.TrimSpace` on ASCII input. -/
def isSpaceChar (c : Char) : Bool :=
  c = ' ' || c = '\t' || c = '\n' || c = '\r'

/-- Model of Go `strings.TrimSpace` (ASCII fragment). -/
def goTrim (s : String) : String :=
  ⟨((s.data.dropWhile isSpaceChar).reverse.dropWhile isSpaceChar).reverse⟩

/-- Does the first list occur as an initial segment of the second? -/
def listStarts : List Char → List Char → Bool
  | [], _ => true
  | _ :: _, [] => false
  | a :: as, b :: bs => a = b && listStarts as bs

/-- Model of Go `strings.HasPrefix`. -/
def goStartsWith (s pat : String) : Bool :=
  listStarts pat.data s.data

/-- Does `pat` occur as a contiguous sublist of the second argument? -/
def listHasSub (pat : List Char) : List Char → Bool
  | [] => pat.isEmpty
  | c :: cs => listStarts pat (c :: cs) || listHasSub pat cs

/-- Model of Go `strings.Contains`. -/
def goContains (s pat : String) : Bool :=
  listHasSub pat.data s.data

/-- Model of Go `strings.Split` with a one-character separator, on the
character list.  Go's split with a nonempty separator always returns at least
one element; splitting the empty string yields `[""]`. -/
def splitChar (sep : Char) : List Char → List (List Char)
  | [] => [[]]
  | c :: cs =>
    if c = sep then [] :: splitChar sep cs
    else
      match splitChar sep cs with
      | [] => [[c]]
      | r :: rs => (c :: r) :: rs

/-- Model of Go `strings.Split` with a one-character separator. -/
def goSplit (s : String) (sep : Char) : List String :=
  (splitChar sep s.data).map (fun l => ⟨l⟩)

theorem splitChar_ne_nil (sep : Char) (l : List Char) : splitChar sep l ≠ [] := by
  induction l with
  | nil => simp [splitChar]
  | cons c cs ih =>
    simp only [splitChar]
    split
    · simp
    · cases h : splitChar sep cs with
      | nil => exact absurd h ih
      | cons r rs => simp

/-- The split has at least two parts exactly when the separator occurs. -/
theorem splitChar_two_le_iff (sep : Char) (l : List Char) :
    2 ≤ (splitChar sep l).length ↔ sep ∈ l := by
  induction l with
  | nil => simp [splitChar]
  | cons c cs ih =>
    simp only [splitChar]
    by_cases hc : c = sep
    · subst hc
      rw [if_pos rfl]
      have hlen : 1 ≤ (splitChar c cs).length := by
        cases h : splitChar c cs with
        | nil => exact absurd h (splitChar_ne_nil c cs)
        | cons r rs => simp
      simp only [List.length_cons, List.mem_cons]
      constructor
      · intro _; exact Or.inl trivial
      · intro _; omega
    · rw [if_neg hc]
      cases h : splitChar sep cs with
      | nil => exact absurd h (splitChar_ne_nil sep cs)
      | cons r rs =>
        simp only [List.length_cons, List.mem_cons]
        rw [h] at ih
        simp only [List.length_cons] at ih
        constructor
        · intro hlen
          exact Or.inr (ih.mp hlen)
        · intro hmem
          rcases hmem with h1 | h2
          · exact absurd h1.symm hc
          · exact ih.mpr h2

/-- When the separator does not occur, the split is the singleton list. -/
theorem splitChar_not_mem (sep : Char) (l : List Char) (h : sep ∉ l) :
    splitChar sep l = [l] := by
  induction l with
  | nil => simp [splitChar]
  | cons c cs ih =>
    simp only [List.mem_cons, not_or] at h
    have h1 : c ≠ sep := fun hc => h.1 hc.symm
    simp only [splitChar, if_neg h1]
    rw [ih h.2]

/-! ### Model of Go `encoding/csv` (quote-free documents) -/

/-- Records of a quote-free CSV document: lines (blank lines skipped),
fields split on commas. -/
def csvRecords (body : String) : List (List String) :=
  ((splitChar '\n' body.data).filter (fun l => l ≠ [])).map
    (fun l => (splitChar ',' l).map (fun f => (⟨f⟩ : String)))

/-- Model of `csv.NewReader(..).ReadAll()` on a quote-free document: every
record must have the same number of fields as the first, else the reader
errors (`ErrFieldCount`). -/
def csvReadAll (body : String) : Except String (List (List String)) :=
  match csvRecords body with
  | [] => .ok []
  | r :: rs =>
    if rs.all (fun x => x.length = r.length) then .ok (r :: rs)
    else .error "record on line: wrong number of fields"

/-! ### Data model -/

/-- The configuration snapshot (`cfg` in `clabot.go`). -/
structure Cfg where
  repoOwner : String
  repoName : String
  eventName : String
  eventPath : String
  signersPath : String
  token : String
  googleSheetUrl : String
  commentMsg : String
  ignoreAuthors : Finset String
deriving DecidableEq

/-- The fields of a platform pull request read by the program
(`pr.GetUser().GetLogin()`, `pr.GetHead().GetSHA()`, `pr.GetBase().GetRef()`,
`pr.GetNumber()`); the library getters return zero values for absent data,
so plain fields model them. -/
structure PullRequest where
  userLogin : String
  headSHA : String
  baseRef : String
  number : Int
deriving DecidableEq, Repr

/-- A decoded `pull_request` event payload (`github.PullRequestEvent`),
restricted to the field the program reads. -/
structure PullRequestEvent where
  pullRequest : PullRequest
deriving DecidableEq, Repr

/-- A decoded `issue_comment` event payload (`github.IssueCommentEvent`),
restricted to the fields the program reads. -/
structure IssueCommentEvent where
  commentUserLogin : String
  commentBody : String
  issueNumber : Int
  issueIsPullRequest : Bool
deriving DecidableEq, Repr

/-- An HTTP response as seen by `loadSignersFromGoogleSheet`. -/
structure HttpResponse where
  status : Nat
  body : String
deriving DecidableEq, Repr

/-- One outbound platform call. -/
inductive Action where
  | httpGet (url : String)
  | getFileContents (path ref : String)
  | getPullRequest (num : Int)
  | createStatus (sha state description : String)
  | createComment (num : Int) (body : String)
deriving DecidableEq, Repr

/-- The external world: responses of the platform and of the sheet URL.
`http` answers the CSV GET, `repoFile` answers
`Repositories.GetContents(path, ref)` composed with `GetContent()`, and
`getPR` answers `PullRequests.Get(number)`.  An `Except.error` is a failed
call. -/
structure Env where
  http : String → Except String HttpResponse
  repoFile : String → String → Except String String
  getPR : Int → Except String PullRequest

/-- Is the action a status or comment post (a "report")? -/
def isReport : Action → Bool
  | .createStatus _ _ _ => true
  | .createComment _ _ => true
  | _ => false

/-- Is the action a commit-status post? -/
def isStatusPost : Action → Bool
  | .createStatus _ _ _ => true
  | _ => false

/-- Is the action an issue-comment post? -/
def isCommentPost : Action → Bool
  | .createComment _ _ => true
  | _ => false

/-! ### `fromEnv`: start-up configuration parsing -/

/-- Model of `fromEnv`.  The process environment is a total map (Go
`os.Getenv` returns `""` for unset variables).  Go indexes `s[0]` and `s[1]`
of `strings.Split(repo, "/")`; when the split has fewer than two elements the
index panics, modelled by `none`. -/
def fromEnv (getenv : String → String) : Option Cfg :=
  let repo := getenv "GITHUB_REPOSITORY"
  let s := goSplit repo '/'
  match s.get? 0, s.get? 1 with
  | some owner, some name =>
    let raw0 := getenv "BOT_IGNORE_AUTHORS"
    let raw := if raw0 = "" then "github-actions[bot]" else raw0
    let ignore : Finset String :=
      ((goSplit raw ',').map (fun a => goToLower (goTrim a))).foldl
        (fun st a => insert a st) ∅
    let cm0 := getenv "COMMENT_MSG"
    let cmsg :=
      if cm0 = "" then
        "Please sign the CLA and then comment `@cla-bot check` on this PR."
      else cm0
    some { repoOwner := owner
           repoName := name
           eventName := getenv "GITHUB_EVENT_NAME"
           eventPath := getenv "GITHUB_EVENT_PATH"
           signersPath := getenv "SIGNERS_PATH"
           token := getenv "GITHUB_TOKEN"
           googleSheetUrl := getenv "GOOGLE_SHEET_URL"
           commentMsg := cmsg
           ignoreAuthors := ignore }
  | _, _ => none

/- Equality tests used on computed values below go through
`decidable_of_iff` rather than an `Eq.rec`, so that they reduce on values
(such as `Finset`s) that are propositionally but not definitionally equal. -/

instance (priority := 2000) optionDecEq {α : Type} [DecidableEq α] :
    DecidableEq (Option α) := fun x y =>
  match x, y with
  | none, none => isTrue rfl
  | none, some _ => isFalse (fun h => by cases h)
  | some _, none => isFalse (fun h => by cases h)
  | some a, some b =>
    decidable_of_iff (a = b)
      ⟨fun h => congrArg some h, fun h => by cases h; rfl⟩

instance (priority := 2000) prodDecEq {α β : Type} [DecidableEq α]
    [DecidableEq β] : DecidableEq (α × β) := fun x y =>
  decidable_of_iff (x.1 = y.1 ∧ x.2 = y.2)
    ⟨fun h => Prod.ext h.1 h.2, fun h => by cases h; exact ⟨rfl, rfl⟩⟩

instance exceptDecEq {ε α : Type} [DecidableEq ε] [DecidableEq α] :
    DecidableEq (Except ε α) := fun x y =>
  match x, y with
  | .error a, .error b =>
    decidable_of_iff (a = b)
      ⟨fun h => congrArg Except.error h, fun h => by cases h; rfl⟩
  | .error _, .ok _ => isFalse (fun h => by cases h)
  | .ok _, .error _ => isFalse (fun h => by cases h)
  | .ok a, .ok b =>
    decidable_of_iff (a = b)
      ⟨fun h => congrArg Except.ok h, fun h => by cases h; rfl⟩

/-! ### Signer source readers -/

/-- One iteration of the row loop of `loadSignersFromGoogleSheet` (after the
header was skipped): a zero-length row is skipped, otherwise `row[1]` is
read, which panics (`none`) when the row has exactly one column. -/
def sheetRowStep (signers : Finset String) (row : List String) :
    Option (Finset String) :=
  if row.length = 0 then some signers
  else
    match row.get? 1 with
    | none => none
    | some v =>
      let login := goToLower (goTrim v)
      some (if login ≠ "" then insert login signers else signers)

/-- The row loop of `loadSignersFromGoogleSheet` over the non-header rows. -/
def sheetRowsFold : List (List String) → Finset String → Option (Finset String)
  | [], acc => some acc
  | r :: rs, acc =>
    match sheetRowStep acc r with
    | none => none
    | some acc2 => sheetRowsFold rs acc2

/-- The whole row loop: index `0` (the header row) is skipped
unconditionally. -/
def sheetSigners (rows : List (List String)) : Option (Finset String) :=
  match rows with
  | [] => some ∅
  | _ :: rest => sheetRowsFold rest ∅

/-- The pure part of `loadSignersFromGoogleSheet` after the HTTP request:
non-200 status and CSV parse failure are errors; the row loop may panic. -/
def sheetProcess (fetch : Except String HttpResponse) :
    Option (Except String (Finset String)) :=
  match fetch with
  | .error e => some (.error e)
  | .ok resp =>
    if resp.status ≠ 200 then
      some (.error ("google sheets returned " ++ toString resp.status))
    else
      match csvReadAll resp.body with
      | .error e => some (.error e)
      | .ok rows => (sheetSigners rows).map Except.ok

/-- Model of `loadSignersFromGoogleSheet`: with an empty URL it errors
without any request; otherwise it performs the GET and processes the
response.  The first component is the trace of outbound calls. -/
def loadSignersFromGoogleSheet (csvURL : String) (env : Env) :
    List Action × Option (Except String (Finset String)) :=
  if csvURL = "" then ([], some (.error "csv url not provided"))
  else ([Action.httpGet csvURL], sheetProcess (env.http csvURL))

/-- The line loop of `loadSignersGithub`: split on newlines, trim each line,
keep nonblank lines not starting with `#`, lowercase and insert. -/
def signerFileSet (content : String) : Finset String :=
  (goSplit content '\n').foldl
    (fun set line =>
      let t := goTrim line
      if t ≠ "" ∧ goStartsWith t "#" = false then insert (goToLower t) set
      else set) ∅

/-- Model of `loadSignersGithub`: fetch the signer file at `ref` and parse
it.  A retrieval or content-decode failure is the `Except.error` of
`env.repoFile`. -/
def loadSignersGithub (c : Cfg) (env : Env) (ref : String) :
    List Action × Except String (Finset String) :=
  ([Action.getFileContents c.signersPath ref],
   match env.repoFile c.signersPath ref with
   | .error e => .error e
   | .ok s => .ok (signerFileSet s))

/-! ### Signer aggregator -/

/-- The merge loop of `loadSigners` (`for k := range m { merged[k] = ... }`):
set union. -/
def mergeInto (merged m : Finset String) : Finset String :=
  merged ∪ m

/-- The repository-file phase of `loadSigners`: when `SignersPath` is empty
the source is skipped, otherwise its failure is wrapped as `repo file:` and
its result merged. -/
def loadSignersRepoPhase (c : Cfg) (env : Env) (ref : String)
    (merged : Finset String) :
    List Action × Option (Except String (Finset String)) :=
  if c.signersPath ≠ "" then
    match loadSignersGithub c env ref with
    | (tr, .error e) => (tr, some (.error ("repo file: " ++ e)))
    | (tr, .ok m) => (tr, some (.ok (mergeInto merged m)))
  else ([], some (.ok merged))

/-- Model of `loadSigners`: the sheet source (when configured) runs first,
its failure wrapped as `sheet:`; then the repository source. -/
def loadSigners (c : Cfg) (env : Env) (ref : String) :
    List Action × Option (Except String (Finset String)) :=
  if c.googleSheetUrl ≠ "" then
    match loadSignersFromGoogleSheet c.googleSheetUrl env with
    | (tr, none) => (tr, none)
    | (tr, some (.error e)) => (tr, some (.error ("sheet: " ++ e)))
    | (tr, some (.ok m)) =>
      match loadSignersRepoPhase c env ref (mergeInto ∅ m) with
      | (tr2, r) => (tr ++ tr2, r)
  else loadSignersRepoPhase c env ref ∅

/-! ### Pull-request handler -/

/-- Model of `handlePullRequest` on a decoded event (the payload decode of
`parseEvent` is applied before this function; a decode failure aborts with
the decoder's error and makes no call).  The author is the lowercased PR
login; on success exactly the reported actions are appended to the signer
fetch trace. -/
def handlePullRequest (c : Cfg) (env : Env) (ev : PullRequestEvent) :
    List Action × Option (Except String Unit) :=
  let pr := ev.pullRequest
  let author := goToLower pr.userLogin
  let sha := pr.headSHA
  match loadSigners c env pr.baseRef with
  | (tr, none) => (tr, none)
  | (tr, some (.error e)) => (tr, some (.error e))
  | (tr, some (.ok signers)) =>
    if author ∈ signers then
      (tr ++ [Action.createStatus sha "success" "CLA signed ✔️"],
       some (.ok ()))
    else
      (tr ++ [Action.createStatus sha "failure" "CLA not signed ❌",
              Action.createComment pr.number
                ("@" ++ author ++ " " ++ c.commentMsg)],
       some (.ok ()))

/-! ### The JSON round-trip of `handleIssueComment`

`handleIssueComment` synthesizes a `pull_request` payload by
`json.Marshal`-ing a minimal `PullRequestEvent`, writing it to a temporary
file and letting `handlePullRequest` re-parse it.  The JSON values involved
are modelled up to the fields the program reads. -/

/-- A JSON value (fragment sufficient for the synthesized payload). -/
inductive Json where
  | null : Json
  | str (s : String) : Json
  | num (n : Int) : Json
  | obj (fields : List (String × Json)) : Json

/-- Field lookup in a JSON object field list. -/
def jsonFind : List (String × Json) → String → Option Json
  | [], _ => none
  | (k, v) :: rest, key => if k = key then some v else jsonFind rest key

/-- Object member access. -/
def jGet : Json → String → Option Json
  | .obj fs, key => jsonFind fs key
  | _, _ => none

/-- Member access through an optional value. -/
def jGetO (j : Option Json) (key : String) : Option Json :=
  j.bind (fun x => jGet x key)

/-- String read with the Go getter zero-value convention. -/
def jStr : Option Json → String
  | some (.str s) => s
  | _ => ""

/-- Integer read with the Go getter zero-value convention. -/
def jInt : Option Json → Int
  | some (.num n) => n
  | _ => 0

/-- Model of `json.Marshal` of the fetched PR, restricted to the fields read back. -/
def encodePullRequest (pr : PullRequest) : Json :=
  .obj [("number", .num pr.number),
        ("user", .obj [("login", .str pr.userLogin)]),
        ("head", .obj [("sha", .str pr.headSHA)]),
        ("base", .obj [("ref", .str pr.baseRef)])]

/-- Model of `json.Marshal` of the minimal synthesized pull-request event. -/
def encodePullRequestEvent (ev : PullRequestEvent) : Json :=
  .obj [("pull_request", encodePullRequest ev.pullRequest)]

/-- Model of `json.Unmarshal` into the event structure followed by the getters
used by `handlePullRequest` (each getter yields the zero value on absent
data). -/
def decodePullRequestEvent (j : Json) : PullRequestEvent :=
  let pr := jGet j "pull_request"
  { pullRequest :=
    { userLogin := jStr (jGetO (jGetO pr "user") "login")
      headSHA := jStr (jGetO (jGetO pr "head") "sha")
      baseRef := jStr (jGetO (jGetO pr "base") "ref")
      number := jInt (jGetO pr "number") } }

/-! ### Issue-comment handler -/

/-- Model of `handleIssueComment` on a decoded event.  Three guards (ignored
author, non-PR issue, missing trigger phrase) terminate with no outbound
call; past the guards the referenced PR is fetched and the pull-request
handler re-run on the serialized-and-reparsed synthesized payload. -/
def handleIssueComment (c : Cfg) (env : Env) (ev : IssueCommentEvent) :
    List Action × Option (Except String Unit) :=
  let author := goToLower ev.commentUserLogin
  if author ∈ c.ignoreAuthors then ([], some (.ok ()))
  else if ev.issueIsPullRequest = false then ([], some (.ok ()))
  else
    let body := goToLower ev.commentBody
    if goContains body "@cla-bot" = false ∧
       goContains body "cla-bot check" = false then ([], some (.ok ()))
    else
      match env.getPR ev.issueNumber with
      | .error e => ([Action.getPullRequest ev.issueNumber], some (.error e))
      | .ok pr =>
        let payload := encodePullRequestEvent { pullRequest := pr }
        match handlePullRequest c env (decodePullRequestEvent payload) with
        | (tr, r) => (Action.getPullRequest ev.issueNumber :: tr, r)

/-! ### Helper lemmas -/

theorem mk_data (s : String) : (⟨s.data⟩ : String) = s := by
  cases s; rfl

theorem isReport_split (a : Action) (h : isReport a = false) :
    isStatusPost a = false ∧ isCommentPost a = false := by
  cases a <;> simp_all [isReport, isStatusPost, isCommentPost]

theorem repoPhase_trace (c : Cfg) (env : Env) (ref : String)
    (m : Finset String) :
    ∀ a ∈ (loadSignersRepoPhase c env ref m).1, isReport a = false := by
  unfold loadSignersRepoPhase
  by_cases hp : c.signersPath ≠ ""
  · rw [if_pos hp]
    cases hx : env.repoFile c.signersPath ref <;>
      simp [loadSignersGithub, hx, isReport]
  · rw [if_neg hp]
    simp

theorem loadSigners_trace (c : Cfg) (env : Env) (ref : String) :
    ∀ a ∈ (loadSigners c env ref).1, isReport a = false := by
  unfold loadSigners
  by_cases hu : c.googleSheetUrl ≠ ""
  · rw [if_pos hu]
    unfold loadSignersFromGoogleSheet
    rw [if_neg (by simpa using hu)]
    cases hr : sheetProcess (env.http c.googleSheetUrl) with
    | none => simp [isReport]
    | some r =>
      cases r with
      | error e => simp [isReport]
      | ok m =>
        simp only
        intro a ha
        rcases List.mem_append.mp ha with h1 | h2
        · rcases List.mem_singleton.mp h1 with rfl
          simp [isReport]
        · exact repoPhase_trace c env ref (mergeInto ∅ m) a h2
  · rw [if_neg hu]
    exact repoPhase_trace c env ref ∅

/-! ### C1 -/

/-- C1: if any configured signer source fails to load, `loadSigners` returns
an error wrapping that source's failure (`sheet:` for the Google-Sheet CSV
when the sheet URL is non-empty, `repo file:` for the repository signer file
when the signers path is non-empty), `handlePullRequest` propagates it, and
no commit status and no comment are posted in that run. -/
theorem loadSigners_failure_aborts_run (c : Cfg) (env : Env)
    (ev : PullRequestEvent) :
    (∀ tr e, c.googleSheetUrl ≠ "" →
      loadSignersFromGoogleSheet c.googleSheetUrl env =
        (tr, some (.error e)) →
      loadSigners c env ev.pullRequest.baseRef =
        (tr, some (.error ("sheet: " ++ e)))) ∧
    (∀ e, c.googleSheetUrl = "" → c.signersPath ≠ "" →
      env.repoFile c.signersPath ev.pullRequest.baseRef = .error e →
      loadSigners c env ev.pullRequest.baseRef =
        ([Action.getFileContents c.signersPath ev.pullRequest.baseRef],
         some (.error ("repo file: " ++ e)))) ∧
    (∀ str m e, c.googleSheetUrl ≠ "" → c.signersPath ≠ "" →
      loadSignersFromGoogleSheet c.googleSheetUrl env = (str, some (.ok m)) →
      env.repoFile c.signersPath ev.pullRequest.baseRef = .error e →
      loadSigners c env ev.pullRequest.baseRef =
        (str ++ [Action.getFileContents c.signersPath ev.pullRequest.baseRef],
         some (.error ("repo file: " ++ e)))) ∧
    (∀ tr e,
      loadSigners c env ev.pullRequest.baseRef = (tr, some (.error e)) →
      handlePullRequest c env ev = (tr, some (.error e)) ∧
      ∀ a ∈ tr, isStatusPost a = false ∧ isCommentPost a = false) := by
  refine ⟨?_, ?_, ?_, ?_⟩
  · intro tr e hu hs
    unfold loadSigners
    rw [if_pos hu, hs]
  · intro e hu hp hrf
    unfold loadSigners
    rw [if_neg (by simp [hu])]
    unfold loadSignersRepoPhase
    rw [if_pos hp]
    unfold loadSignersGithub
    rw [hrf]
  · intro str m e hu hp hs hrf
    unfold loadSigners
    rw [if_pos hu, hs]
    simp only
    unfold loadSignersRepoPhase
    rw [if_pos hp]
    unfold loadSignersGithub
    rw [hrf]
  · intro tr e h
    constructor
    · simp only [handlePullRequest]
      rw [h]
    · intro a ha
      have h2 := loadSigners_trace c env ev.pullRequest.baseRef
      rw [h] at h2
      exact isReport_split a (h2 a ha)

/-- Witness for C1 at a concrete configuration whose repository signer file
fails to load. -/
theorem loadSigners_failure_aborts_run_witness :
    loadSigners
      { repoOwner := "o", repoName := "r", eventName := "pull_request",
        eventPath := "p", signersPath := "cla-signers.txt", token := "t",
        googleSheetUrl := "", commentMsg := "m", ignoreAuthors := ∅ }
      { http := fun _ => .error "net", repoFile := fun _ _ => .error "boom",
        getPR := fun _ => .error "na" }
      "main" =
      ([Action.getFileContents "cla-signers.txt" "main"],
       some (.error ("repo file: " ++ "boom"))) ∧
    handlePullRequest
      { repoOwner := "o", repoName := "r", eventName := "pull_request",
        eventPath := "p", signersPath := "cla-signers.txt", token := "t",
        googleSheetUrl := "", commentMsg := "m", ignoreAuthors := ∅ }
      { http := fun _ => .error "net", repoFile := fun _ _ => .error "boom",
        getPR := fun _ => .error "na" }
      ⟨⟨"alice", "sha1", "main", 7⟩⟩ =
      ([Action.getFileContents "cla-signers.txt" "main"],
       some (.error ("repo file: " ++ "boom"))) := by
  refine ⟨?_, ?_⟩
  · exact (loadSigners_failure_aborts_run _ _ ⟨⟨"alice", "sha1", "main", 7⟩⟩).2.1
      "boom" rfl (by decide) rfl
  · exact ((loadSigners_failure_aborts_run _ _ ⟨⟨"alice", "sha1", "main", 7⟩⟩).2.2.2
      _ ("repo file: " ++ "boom")
      ((loadSigners_failure_aborts_run _ _ ⟨⟨"alice", "sha1", "main", 7⟩⟩).2.1
        "boom" rfl (by decide) rfl)).1

/-! ### C2 -/

theorem goSplit_no_sep (s : String) (sep : Char) (h : sep ∉ s.data) :
    goSplit s sep = [s] := by
  unfold goSplit
  rw [splitChar_not_mem sep s.data h]
  simp [mk_data]

/-- C2 counterexample: lookup is *not* whitespace-trimmed on the author
side.  The author handle `" Alice "` differs from the stored signer entry
`"alice"` only by letter case and surrounding whitespace, yet it is not
found in the set, and the run reports `failure` at the point of
comparison. -/
theorem signer_lookup_trim_counterexample :
    goTrim " Alice " = "Alice" ∧
    goToLower "Alice" = "alice" ∧
    goToLower " Alice " ∉ signerFileSet "alice" ∧
    handlePullRequest
      { repoOwner := "o", repoName := "r", eventName := "pull_request",
        eventPath := "p", signersPath := "cla-signers.txt", token := "t",
        googleSheetUrl := "", commentMsg := "m", ignoreAuthors := ∅ }
      { http := fun _ => .error "na", repoFile := fun _ _ => .ok "alice",
        getPR := fun _ => .error "na" }
      ⟨⟨" Alice ", "sha1", "main", 7⟩⟩ =
      ([Action.getFileContents "cla-signers.txt" "main",
        Action.createStatus "sha1" "failure" "CLA not signed ❌",
        Action.createComment 7 "@ alice  m"],
       some (.ok ())) := by
  refine ⟨by decide, by decide, by decide, by decide⟩

/-- C2 (amended): signer entries are whitespace-trimmed and lowercased when
stored, while the author handle is lowercased (but not trimmed) at lookup;
hence a stored entry that differs from the author's lowercased handle by
letter case or by surrounding whitespace on the *entry's* side is found in
the set — in particular stored `" Alice "` matches author `"alice"` — and
such a pull-request run reports `success`. -/
theorem signer_lookup_case_insensitive (c : Cfg) (env : Env)
    (ev : PullRequestEvent) (entry : String)
    (hsheet : c.googleSheetUrl = "") (hpath : c.signersPath ≠ "")
    (hfile : env.repoFile c.signersPath ev.pullRequest.baseRef = .ok entry)
    (hnl : '\n' ∉ entry.data)
    (hne : goTrim entry ≠ "")
    (hnc : goStartsWith (goTrim entry) "#" = false)
    (hcase : goToLower ev.pullRequest.userLogin = goToLower (goTrim entry)) :
    signerFileSet entry = {goToLower (goTrim entry)} ∧
    goToLower ev.pullRequest.userLogin ∈ signerFileSet entry ∧
    handlePullRequest c env ev =
      ([Action.getFileContents c.signersPath ev.pullRequest.baseRef,
        Action.createStatus ev.pullRequest.headSHA "success" "CLA signed ✔️"],
       some (.ok ())) := by
  have hset : signerFileSet entry = {goToLower (goTrim entry)} := by
    unfold signerFileSet
    rw [goSplit_no_sep entry '\n' hnl]
    simp [hne, hnc]
  have hmem : goToLower ev.pullRequest.userLogin ∈ signerFileSet entry := by
    rw [hset, hcase]
    exact Finset.mem_singleton_self _
  refine ⟨hset, hmem, ?_⟩
  have hls : loadSigners c env ev.pullRequest.baseRef =
      ([Action.getFileContents c.signersPath ev.pullRequest.baseRef],
       some (.ok (mergeInto ∅ (signerFileSet entry)))) := by
    unfold loadSigners
    rw [if_neg (by simp [hsheet])]
    unfold loadSignersRepoPhase
    rw [if_pos hpath]
    unfold loadSignersGithub
    rw [hfile]
  have hmem2 : goToLower ev.pullRequest.userLogin ∈
      mergeInto ∅ (signerFileSet entry) := by
    unfold mergeInto
    rw [Finset.empty_union]
    exact hmem
  simp only [handlePullRequest]
  rw [hls]
  simp only [if_pos hmem2]
  rfl

/-- Witness for the amended C2: stored entry `" Alice "`, author handle
`"alice"`. -/
theorem signer_lookup_case_insensitive_witness :
    signerFileSet " Alice " = {goToLower (goTrim " Alice ")} ∧
    goToLower "alice" ∈ signerFileSet " Alice " ∧
    handlePullRequest
      { repoOwner := "o", repoName := "r", eventName := "pull_request",
        eventPath := "p", signersPath := "cla-signers.txt", token := "t",
        googleSheetUrl := "", commentMsg := "m", ignoreAuthors := ∅ }
      { http := fun _ => .error "na", repoFile := fun _ _ => .ok " Alice ",
        getPR := fun _ => .error "na" }
      ⟨⟨"alice", "sha1", "main", 7⟩⟩ =
      ([Action.getFileContents "cla-signers.txt" "main",
        Action.createStatus "sha1" "success" "CLA signed ✔️"],
       some (.ok ())) :=
  signer_lookup_case_insensitive
    { repoOwner := "o", repoName := "r", eventName := "pull_request",
      eventPath := "p", signersPath := "cla-signers.txt", token := "t",
      googleSheetUrl := "", commentMsg := "m", ignoreAuthors := ∅ }
    { http := fun _ => .error "na", repoFile := fun _ _ => .ok " Alice ",
      getPR := fun _ => .error "na" }
    ⟨⟨"alice", "sha1", "main", 7⟩⟩ " Alice "
    rfl (by decide) rfl (by decide) (by decide) (by decide) (by decide)

/-! ### C3 -/

/-- C3: evaluation of the CSV row loop at a failing input.  The single-column
document `"h\nalice"` is accepted by the CSV reader (all records have one
field), the zero-column guard does not fire, and reading `row[1]` of
`["alice"]` is an out-of-range index: the run panics (`none`) instead of
skipping the row.  A row with zero columns is skipped, and the header row is
skipped unconditionally. -/
theorem sheet_reader_one_column_panics :
    csvReadAll "h\nalice" = .ok [["h"], ["alice"]] ∧
    sheetRowStep ∅ ["alice"] = none ∧
    sheetSigners [["h"], ["alice"]] = none ∧
    loadSignersFromGoogleSheet "https://sheet.example/csv"
      { http := fun _ => .ok ⟨200, "h\nalice"⟩,
        repoFile := fun _ _ => .error "na", getPR := fun _ => .error "na" } =
      ([Action.httpGet "https://sheet.example/csv"], none) ∧
    sheetRowStep ∅ ([] : List String) = some ∅ ∧
    sheetSigners [["only the header row"]] = some ∅ := by
  refine ⟨by decide, by decide, by decide, by decide, by decide, by decide⟩

/-! ### C7 -/

/-- C7: on CSV input `"header1,header2\nFoo Bar,alice\nBaz,Bob"` fetched
with HTTP status 200, `loadSignersFromGoogleSheet` returns exactly the set
`{alice, bob}`: the first row is discarded as header and the identifier is
read from the second column of each remaining row. -/
theorem sheet_reader_example :
    loadSignersFromGoogleSheet "https://sheet.example/csv"
      { http := fun _ =>
          .ok ⟨200, "header1,header2\nFoo Bar,alice\nBaz,Bob"⟩,
        repoFile := fun _ _ => .error "na", getPR := fun _ => .error "na" } =
      ([Action.httpGet "https://sheet.example/csv"],
       some (.ok {"alice", "bob"})) := by
  decide

/-! ### C8 -/

/-- C8: on repository-file content `"# comment\n\nAlice\nBOB\n"`,
`loadSignersGithub` returns exactly the set `{alice, bob}`: lines are
trimmed, blank lines and `#`-comments discarded, the rest lowercased and
inserted. -/
theorem repo_file_reader_example :
    signerFileSet "# comment\n\nAlice\nBOB\n" = {"alice", "bob"} ∧
    loadSignersGithub
      { repoOwner := "o", repoName := "r", eventName := "pull_request",
        eventPath := "p", signersPath := "cla-signers.txt", token := "t",
        googleSheetUrl := "", commentMsg := "m", ignoreAuthors := ∅ }
      { http := fun _ => .error "na",
        repoFile := fun _ _ => .ok "# comment\n\nAlice\nBOB\n",
        getPR := fun _ => .error "na" }
      "main" =
      ([Action.getFileContents "cla-signers.txt" "main"],
       .ok {"alice", "bob"}) := by
  refine ⟨by decide, by decide⟩

/-! ### C4 -/

/-- C4: on a successful pull-request run, exactly one commit status is
posted on the PR head revision: `success` with no comment when the author is
in the merged signer set, `failure` plus exactly one comment — `@<author>`
followed by the configured message — when the author is not in the set. -/
theorem handlePullRequest_reports_once (c : Cfg) (env : Env)
    (ev : PullRequestEvent) (ltr : List Action) (s : Finset String)
    (h : loadSigners c env ev.pullRequest.baseRef = (ltr, some (.ok s))) :
    (handlePullRequest c env ev).2 = some (.ok ()) ∧
    (handlePullRequest c env ev).1.countP isStatusPost = 1 ∧
    (goToLower ev.pullRequest.userLogin ∈ s →
      handlePullRequest c env ev =
        (ltr ++ [Action.createStatus ev.pullRequest.headSHA "success"
                   "CLA signed ✔️"],
         some (.ok ())) ∧
      (handlePullRequest c env ev).1.countP isCommentPost = 0) ∧
    (goToLower ev.pullRequest.userLogin ∉ s →
      handlePullRequest c env ev =
        (ltr ++ [Action.createStatus ev.pullRequest.headSHA "failure"
                   "CLA not signed ❌",
                 Action.createComment ev.pullRequest.number
                   ("@" ++ goToLower ev.pullRequest.userLogin ++ " " ++
                    c.commentMsg)],
         some (.ok ())) ∧
      (handlePullRequest c env ev).1.countP isCommentPost = 1) := by
  have hclean : ∀ a ∈ ltr, isReport a = false := by
    have h2 := loadSigners_trace c env ev.pullRequest.baseRef
    rw [h] at h2
    exact h2
  have hstat0 : ltr.countP isStatusPost = 0 :=
    List.countP_eq_zero.mpr fun a ha => by
      simp [(isReport_split a (hclean a ha)).1]
  have hcom0 : ltr.countP isCommentPost = 0 :=
    List.countP_eq_zero.mpr fun a ha => by
      simp [(isReport_split a (hclean a ha)).2]
  by_cases hm : goToLower ev.pullRequest.userLogin ∈ s
  · have hpr : handlePullRequest c env ev =
        (ltr ++ [Action.createStatus ev.pullRequest.headSHA "success"
                   "CLA signed ✔️"],
         some (.ok ())) := by
      simp only [handlePullRequest]
      rw [h]
      simp only [if_pos hm]
    refine ⟨by rw [hpr], ?_, fun _ => ⟨hpr, ?_⟩, fun hnm => absurd hm hnm⟩
    · rw [hpr]
      simp [List.countP_append, hstat0, isStatusPost, List.countP_cons]
    · rw [hpr]
      simp [List.countP_append, hcom0, isCommentPost, List.countP_cons]
  · have hpr : handlePullRequest c env ev =
        (ltr ++ [Action.createStatus ev.pullRequest.headSHA "failure"
                   "CLA not signed ❌",
                 Action.createComment ev.pullRequest.number
                   ("@" ++ goToLower ev.pullRequest.userLogin ++ " " ++
                    c.commentMsg)],
         some (.ok ())) := by
      simp only [handlePullRequest]
      rw [h]
      simp only [if_neg hm]
    refine ⟨by rw [hpr], ?_, fun hm2 => absurd hm2 hm, fun _ => ⟨hpr, ?_⟩⟩
    · rw [hpr]
      simp [List.countP_append, hstat0, isStatusPost, List.countP_cons]
    · rw [hpr]
      simp [List.countP_append, hcom0, isCommentPost, List.countP_cons]

/-- Witness for C4: both sources unconfigured, so the merged set is empty
and the author is not in it. -/
theorem handlePullRequest_reports_once_witness :
    (handlePullRequest
      { repoOwner := "o", repoName := "r", eventName := "pull_request",
        eventPath := "p", signersPath := "", token := "t",
        googleSheetUrl := "", commentMsg := "m", ignoreAuthors := ∅ }
      { http := fun _ => .error "na", repoFile := fun _ _ => .error "na",
        getPR := fun _ => .error "na" }
      ⟨⟨"alice", "sha1", "main", 7⟩⟩).2 = some (.ok ()) ∧
    (handlePullRequest
      { repoOwner := "o", repoName := "r", eventName := "pull_request",
        eventPath := "p", signersPath := "", token := "t",
        googleSheetUrl := "", commentMsg := "m", ignoreAuthors := ∅ }
      { http := fun _ => .error "na", repoFile := fun _ _ => .error "na",
        getPR := fun _ => .error "na" }
      ⟨⟨"alice", "sha1", "main", 7⟩⟩).1.countP isStatusPost = 1 := by
  have happ := handlePullRequest_reports_once
    { repoOwner := "o", repoName := "r", eventName := "pull_request",
      eventPath := "p", signersPath := "", token := "t",
      googleSheetUrl := "", commentMsg := "m", ignoreAuthors := ∅ }
    { http := fun _ => .error "na", repoFile := fun _ _ => .error "na",
      getPR := fun _ => .error "na" }
    ⟨⟨"alice", "sha1", "main", 7⟩⟩ [] ∅ rfl
  exact ⟨happ.1, happ.2.1⟩

/-! ### C5 -/

/-- C5: an issue-comment event whose author's lowercased identifier is in
the ignore-list, or whose issue is not a pull request, or whose lowercased
body contains no trigger phrase, terminates with no action: the trace of
outbound calls is empty and no status or comment is posted. -/
theorem handleIssueComment_guards_no_action (c : Cfg) (env : Env)
    (ev : IssueCommentEvent)
    (h : goToLower ev.commentUserLogin ∈ c.ignoreAuthors ∨
         ev.issueIsPullRequest = false ∨
         (goContains (goToLower ev.commentBody) "@cla-bot" = false ∧
          goContains (goToLower ev.commentBody) "cla-bot check" = false)) :
    handleIssueComment c env ev = ([], some (.ok ())) := by
  unfold handleIssueComment
  by_cases hA : goToLower ev.commentUserLogin ∈ c.ignoreAuthors
  · rw [if_pos hA]
  · rw [if_neg hA]
    by_cases hB : ev.issueIsPullRequest = false
    · rw [if_pos hB]
    · rw [if_neg hB]
      have hC : goContains (goToLower ev.commentBody) "@cla-bot" = false ∧
          goContains (goToLower ev.commentBody) "cla-bot check" = false := by
        rcases h with h | h | h
        · exact absurd h hA
        · exact absurd h hB
        · exact h
      rw [if_pos hC]

/-- Witness for C5: a comment `"please review"` on a pull request by a
non-ignored author contains no trigger phrase, so nothing happens. -/
theorem handleIssueComment_guards_no_action_witness :
    handleIssueComment
      { repoOwner := "o", repoName := "r", eventName := "issue_comment",
        eventPath := "p", signersPath := "cla-signers.txt", token := "t",
        googleSheetUrl := "", commentMsg := "m",
        ignoreAuthors := {"github-actions[bot]"} }
      { http := fun _ => .error "na", repoFile := fun _ _ => .ok "alice",
        getPR := fun _ => .error "na" }
      ⟨"bob", "please review", 7, true⟩ = ([], some (.ok ())) :=
  handleIssueComment_guards_no_action
    { repoOwner := "o", repoName := "r", eventName := "issue_comment",
      eventPath := "p", signersPath := "cla-signers.txt", token := "t",
      googleSheetUrl := "", commentMsg := "m",
      ignoreAuthors := {"github-actions[bot]"} }
    { http := fun _ => .error "na", repoFile := fun _ _ => .ok "alice",
      getPR := fun _ => .error "na" }
    ⟨"bob", "please review", 7, true⟩
    (Or.inr (Or.inr (by decide)))

/-! ### C6 -/

theorem decode_encode_roundtrip (ev : PullRequestEvent) :
    decodePullRequestEvent (encodePullRequestEvent ev) = ev := rfl

/-- C6: an issue-comment event that passes all three guards is processed
exactly as a pull-request event for the PR fetched by the issue's number:
after the fetch, the trace and the result are those of `handlePullRequest`
on that PR (same author resolution, same base-branch revision, same
status/comment outcome), via the serialize-and-reparse round-trip. -/
theorem handleIssueComment_equiv_pull_request (c : Cfg) (env : Env)
    (ev : IssueCommentEvent) (pr : PullRequest)
    (h1 : goToLower ev.commentUserLogin ∉ c.ignoreAuthors)
    (h2 : ev.issueIsPullRequest = true)
    (h3 : goContains (goToLower ev.commentBody) "@cla-bot" = true ∨
          goContains (goToLower ev.commentBody) "cla-bot check" = true)
    (h4 : env.getPR ev.issueNumber = .ok pr) :
    handleIssueComment c env ev =
      (Action.getPullRequest ev.issueNumber ::
        (handlePullRequest c env ⟨pr⟩).1,
       (handlePullRequest c env ⟨pr⟩).2) := by
  unfold handleIssueComment
  rw [if_neg h1, if_neg (by simp [h2])]
  have hC : ¬ (goContains (goToLower ev.commentBody) "@cla-bot" = false ∧
      goContains (goToLower ev.commentBody) "cla-bot check" = false) := by
    rcases h3 with h3 | h3 <;> simp [h3]
  rw [if_neg hC, h4]
  simp only [decode_encode_roundtrip]

/-- Witness for C6: a triggering comment on PR 7; both sources unconfigured,
so the re-run posts a `failure` status and a comment for the PR author. -/
theorem handleIssueComment_equiv_pull_request_witness :
    handleIssueComment
      { repoOwner := "o", repoName := "r", eventName := "issue_comment",
        eventPath := "p", signersPath := "", token := "t",
        googleSheetUrl := "", commentMsg := "m",
        ignoreAuthors := {"github-actions[bot]"} }
      { http := fun _ => .error "na", repoFile := fun _ _ => .error "na",
        getPR := fun _ => .ok ⟨"alice", "sha1", "main", 7⟩ }
      ⟨"bob", "@cla-bot check", 7, true⟩ =
      (Action.getPullRequest 7 ::
        (handlePullRequest
          { repoOwner := "o", repoName := "r", eventName := "issue_comment",
            eventPath := "p", signersPath := "", token := "t",
            googleSheetUrl := "", commentMsg := "m",
            ignoreAuthors := {"github-actions[bot]"} }
          { http := fun _ => .error "na", repoFile := fun _ _ => .error "na",
            getPR := fun _ => .ok ⟨"alice", "sha1", "main", 7⟩ }
          ⟨⟨"alice", "sha1", "main", 7⟩⟩).1,
       (handlePullRequest
          { repoOwner := "o", repoName := "r", eventName := "issue_comment",
            eventPath := "p", signersPath := "", token := "t",
            googleSheetUrl := "", commentMsg := "m",
            ignoreAuthors := {"github-actions[bot]"} }
          { http := fun _ => .error "na", repoFile := fun _ _ => .error "na",
            getPR := fun _ => .ok ⟨"alice", "sha1", "main", 7⟩ }
          ⟨⟨"alice", "sha1", "main", 7⟩⟩).2) :=
  handleIssueComment_equiv_pull_request
    { repoOwner := "o", repoName := "r", eventName := "issue_comment",
      eventPath := "p", signersPath := "", token := "t",
      googleSheetUrl := "", commentMsg := "m",
      ignoreAuthors := {"github-actions[bot]"} }
    { http := fun _ => .error "na", repoFile := fun _ _ => .error "na",
      getPR := fun _ => .ok ⟨"alice", "sha1", "main", 7⟩ }
    ⟨"bob", "@cla-bot check", 7, true⟩ ⟨"alice", "sha1", "main", 7⟩
    (by decide) rfl (Or.inl (by decide)) rfl

/-! ### C9 -/

/-- C9: aggregation of signer sources is a set union — idempotent and
order-independent (merging `{a,b}` then `{b,c}` yields `{a,b,c}` in either
merge order) — and an unconfigured source contributes nothing and causes no
failure: with both sources unconfigured, `loadSigners` makes no call and
returns the empty set and no error. -/
theorem loadSigners_union_algebra :
    (∀ s t : Finset String, mergeInto s t = mergeInto t s) ∧
    (∀ s t : Finset String, mergeInto (mergeInto s t) t = mergeInto s t) ∧
    mergeInto (mergeInto ∅ {"a", "b"}) {"b", "c"} =
      ({"a", "b", "c"} : Finset String) ∧
    mergeInto (mergeInto ∅ {"b", "c"}) {"a", "b"} =
      ({"a", "b", "c"} : Finset String) ∧
    (∀ (c : Cfg) (env : Env) (ref : String),
      c.googleSheetUrl = "" → c.signersPath = "" →
      loadSigners c env ref = ([], some (.ok ∅))) := by
  refine ⟨?_, ?_, by decide, by decide, ?_⟩
  · intro s t
    exact Finset.union_comm s t
  · intro s t
    simp [mergeInto, Finset.union_assoc]
  · intro c env ref hu hp
    unfold loadSigners
    rw [if_neg (by simp [hu])]
    unfold loadSignersRepoPhase
    rw [if_neg (by simp [hp])]

/-- Witness for C9: a concrete fully-unconfigured run. -/
theorem loadSigners_union_algebra_witness :
    loadSigners
      { repoOwner := "o", repoName := "r", eventName := "pull_request",
        eventPath := "p", signersPath := "", token := "t",
        googleSheetUrl := "", commentMsg := "m", ignoreAuthors := ∅ }
      { http := fun _ => .error "na", repoFile := fun _ _ => .error "na",
        getPR := fun _ => .error "na" }
      "main" = ([], some (.ok ∅)) :=
  loadSigners_union_algebra.2.2.2.2
    { repoOwner := "o", repoName := "r", eventName := "pull_request",
      eventPath := "p", signersPath := "", token := "t",
      googleSheetUrl := "", commentMsg := "m", ignoreAuthors := ∅ }
    { http := fun _ => .error "na", repoFile := fun _ _ => .error "na",
      getPR := fun _ => .error "na" }
    "main" rfl rfl

/-! ### C10 -/

theorem listHasSub_singleton (c : Char) (l : List Char) :
    listHasSub [c] l = true ↔ c ∈ l := by
  induction l with
  | nil => simp [listHasSub, List.isEmpty]
  | cons a as ih =>
    simp only [listHasSub, listStarts, Bool.or_eq_true, List.mem_cons]
    constructor
    · intro h
      rcases h with h | h
      · simp only [Bool.and_eq_true, decide_eq_true_eq] at h
        exact Or.inl h.1
      · exact Or.inr (ih.mp h)
    · intro h
      rcases h with h | h
      · left
        simp [h, listStarts]
      · exact Or.inr (ih.mpr h)

/-- C10: `fromEnv` completes exactly when `GITHUB_REPOSITORY` contains at
least one `/`; for any value without a `/` (including the empty string) the
access to the second element of the split is out of bounds and
configuration construction cannot complete. -/
theorem fromEnv_requires_slash (getenv : String → String) :
    (goContains (getenv "GITHUB_REPOSITORY") "/" = false →
      fromEnv getenv = none) ∧
    (goContains (getenv "GITHUB_REPOSITORY") "/" = true →
      (fromEnv getenv).isSome = true) := by
  have hiff : goContains (getenv "GITHUB_REPOSITORY") "/" = true ↔
      '/' ∈ (getenv "GITHUB_REPOSITORY").data :=
    listHasSub_singleton '/' (getenv "GITHUB_REPOSITORY").data
  constructor
  · intro h
    have hnm : '/' ∉ (getenv "GITHUB_REPOSITORY").data := by
      intro hm
      rw [hiff.mpr hm] at h
      cases h
    have hone : splitChar '/' (getenv "GITHUB_REPOSITORY").data =
        [(getenv "GITHUB_REPOSITORY").data] :=
      splitChar_not_mem '/' _ hnm
    simp only [fromEnv, goSplit]
    rw [hone]
    rfl
  · intro h
    have hmem := hiff.mp h
    have hlen : 2 ≤ (splitChar '/' (getenv "GITHUB_REPOSITORY").data).length :=
      (splitChar_two_le_iff '/' _).mpr hmem
    simp only [fromEnv, goSplit]
    cases hsp : splitChar '/' (getenv "GITHUB_REPOSITORY").data with
    | nil => exact absurd hsp (splitChar_ne_nil '/' _)
    | cons a l =>
      cases l with
      | nil =>
        rw [hsp] at hlen
        simp at hlen
      | cons b l2 =>
        rfl

/-- Witness for C10: `GITHUB_REPOSITORY = "owner/repo"` completes, the empty
environment does not. -/
theorem fromEnv_requires_slash_witness :
    fromEnv (fun _ => "") = none ∧
    (fromEnv (fun k =>
      if k = "GITHUB_REPOSITORY" then "owner/repo" else "")).isSome = true :=
  ⟨(fromEnv_requires_slash (fun _ => "")).1 (by decide),
   (fromEnv_requires_slash (fun k =>
      if k = "GITHUB_REPOSITORY" then "owner/repo" else "")).2 (by decide)⟩

end Clabot
